import Mathlib

/-!
Verification of the open-lovable core subsystems against their source:
project persistence (src/lib/project-persistence.ts), the error monitor
(src/lib/error-monitor.ts), the auto-fix route, the sandbox lifecycle
warning component, and the restore-project route.

File contents are modelled as `List Char`; JavaScript string operations
(`includes`, `replace`, `startsWith`, `endsWith`, `split`) are embedded as
executable list functions below.  localStorage is modelled as a two-slot
store; a slot holds either a deserializable snapshot or corrupt text.
-/

/-- `{path, content, type}` from project-persistence.ts (interface ProjectFile). -/
structure ProjectFile where
  path : String
  content : String
  type : String
deriving DecidableEq

/-- `ProjectState` from project-persistence.ts; `lastSaved` (a Date serialized to
an ISO string) is modelled as a natural-number timestamp. -/
structure ProjectState where
  files : List ProjectFile
  packages : List String
  lastSaved : Nat
  projectName : String
  sandboxId : Option String
deriving DecidableEq

/-- Content of one localStorage slot: `good s` is text that `JSON.parse`
deserializes to the snapshot `s`; `corrupt` is text on which `JSON.parse`
throws. An absent slot is `none` at the `Storage` level. -/
inductive SlotVal where
  | good (s : ProjectState)
  | corrupt
deriving DecidableEq

/-- The two localStorage slots used by ProjectPersistence:
`STORAGE_KEY` (primary) and `BACKUP_KEY` (backup). -/
structure Storage where
  primary : Option SlotVal
  backup : Option SlotVal
deriving DecidableEq

/-- Failure injection for `saveProject`: the code wraps
`JSON.stringify`, `localStorage.setItem(STORAGE_KEY)` and
`localStorage.setItem(BACKUP_KEY)` in one try/catch.  Each constructor
names the first of those three operations that throws (`ok` = none throws). -/
inductive SaveFault where
  | ok
  | serializeThrows
  | primaryThrows
  | backupThrows
deriving DecidableEq

/-- `ProjectPersistence.saveProject` with an injected fault.  The body
serializes `{...state, lastSaved: now}` and writes it to the primary slot,
then to the backup slot; a throw at any point jumps to the catch
(which only logs), leaving the remaining writes undone. -/
def saveProjectF (now : Nat) (state : ProjectState) (fault : SaveFault) (σ : Storage) : Storage :=
  match fault with
  | SaveFault.serializeThrows => σ
  | SaveFault.primaryThrows => σ
  | SaveFault.backupThrows =>
      { σ with primary := some (SlotVal.good { state with lastSaved := now }) }
  | SaveFault.ok =>
      { primary := some (SlotVal.good { state with lastSaved := now }),
        backup := some (SlotVal.good { state with lastSaved := now }) }

/-- `ProjectPersistence.saveProject` on the fault-free path (browser context,
no storage exception). -/
def saveProject (now : Nat) (state : ProjectState) (σ : Storage) : Storage :=
  saveProjectF now state SaveFault.ok σ

/-- `ProjectPersistence.loadProject`: reads the primary slot; if it is absent,
reads the backup slot.  `JSON.parse` throwing on a present-but-corrupt slot is
caught and yields `null` — note that a corrupt primary does NOT fall through to
the backup, because the parse throw skips straight to the catch block. -/
def loadProject (σ : Storage) : Option ProjectState :=
  match σ.primary with
  | some (SlotVal.good s) => some s
  | some SlotVal.corrupt => none
  | none =>
      match σ.backup with
      | some (SlotVal.good s) => some s
      | some SlotVal.corrupt => none
      | none => none

/-- JavaScript `Map.set` semantics on a path-keyed file list: updating an
existing key replaces its value in place (insertion order kept); a new key is
appended. -/
def insertFile (m : List ProjectFile) (f : ProjectFile) : List ProjectFile :=
  if m.any (fun g => g.path == f.path) then
    m.map (fun g => if g.path == f.path then f else g)
  else
    m ++ [f]

/-- First file in the list with the given path (JS `Map.get` on a
deduplicated list; also the lookup used to state retrievability). -/
def findPath (m : List ProjectFile) (p : String) : Option ProjectFile :=
  m.find? (fun g => g.path == p)

/-- Last file in the list with the given path (the value a path-keyed map
holds after inserting the whole list in order — last write wins). -/
def findLastPath : List ProjectFile → String → Option ProjectFile
  | [], _ => none
  | f :: t, p =>
      match findLastPath t p with
      | some g => some g
      | none => if f.path == p then some f else none

/-- JavaScript `[...new Set(l)]`: duplicates removed, first occurrence kept,
order preserved. -/
def dedupFirst : List String → List String
  | [] => []
  | x :: xs => x :: dedupFirst (xs.filter (fun y => !(y == x)))
termination_by l => l.length
decreasing_by
  simp only [List.length_cons]
  exact Nat.lt_succ_of_le (List.length_filter_le _ _)

/-- Default state used by `saveFiles` when no snapshot is stored. -/
def defaultState (now : Nat) : ProjectState :=
  { files := [], packages := [], lastSaved := now,
    projectName := "PLC Karting", sandboxId := none }

/-- `ProjectPersistence.saveFiles`: loads the existing snapshot (or the
default), seeds a `path → ProjectFile` map with the existing files, inserts
every new file (last write wins), unions the package lists as a set, and
saves the merged state.  `new Date()` is the parameter `now`. -/
def saveFiles (now : Nat) (files : List ProjectFile) (packages : List String) (σ : Storage) : Storage :=
  let existing := (loadProject σ).getD (defaultState now)
  let merged := (existing.files ++ files).foldl insertFile []
  let allPackages := dedupFirst (existing.packages ++ packages)
  saveProject now
    { existing with files := merged, packages := allPackages, lastSaved := now } σ

/-- `ProjectPersistence.hasProject`. -/
def hasProject (σ : Storage) : Bool :=
  σ.primary.isSome || σ.backup.isSome

/-- `ProjectPersistence.clearProject`. -/
def clearProject (_σ : Storage) : Storage :=
  { primary := none, backup := none }

/-- A parsed import document (`JSON.parse(text) as ProjectState`), field by
field: `corrupt` is text on which `JSON.parse` throws; in `parsed`, each
field is `none` when absent — for `filesF`, `none` also covers a present
`files` field that is not an array (both fail `!state.files ||
!Array.isArray(state.files)` the same way). -/
inductive ImportDoc where
  | corrupt
  | parsed (filesF : Option (List ProjectFile)) (packagesF : Option (List String))
      (projectNameF : Option String) (sandboxIdF : Option String)
      (lastSavedF : Option Nat)
deriving DecidableEq

/-- `ProjectPersistence.importProject`: parse, reject (returning false,
without touching storage) unless `files` is a well-formed array, otherwise
store the document via `saveProject` and return true.  Fields the document
lacks are modelled with defaults; the claims under verification never
observe those defaults. -/
def importProject (now : Nat) (d : ImportDoc) (σ : Storage) : Bool × Storage :=
  match d with
  | ImportDoc.corrupt => (false, σ)
  | ImportDoc.parsed none _ _ _ _ => (false, σ)
  | ImportDoc.parsed (some fs) pkgs name sbid ls =>
      (true,
        saveProject now
          { files := fs, packages := pkgs.getD [], lastSaved := ls.getD 0,
            projectName := name.getD "", sandboxId := sbid } σ)

/-! ## JavaScript string operations on `List Char` -/

/-- Split a list at the first occurrence of `pat`: returns the part before
the occurrence and the part after it.  `none` when `pat` does not occur. -/
def findSplit (pat : List Char) : List Char → Option (List Char × List Char)
  | [] => if pat.isEmpty then some ([], []) else none
  | c :: rest =>
      if pat.isPrefixOf (c :: rest) then some ([], (c :: rest).drop pat.length)
      else (findSplit pat rest).map (fun p => (c :: p.1, p.2))

/-- JavaScript `s.includes(pat)`. -/
def containsChars (pat s : List Char) : Bool :=
  (findSplit pat s).isSome

/-- JavaScript `s.replace(pat, rep)` with a non-global literal pattern:
replaces the first occurrence only. -/
def replaceFirst (pat rep s : List Char) : List Char :=
  match findSplit pat s with
  | none => s
  | some (b, a) => b ++ rep ++ a

/-- Fuelled worker for global replacement. -/
def replaceAllGo (pat rep : List Char) : Nat → List Char → List Char
  | 0, s => s
  | Nat.succ fuel, s =>
      match findSplit pat s with
      | none => s
      | some (b, a) => b ++ rep ++ replaceAllGo pat rep fuel a

/-- JavaScript `s.replace(pat, rep)` with a global (`/g`) literal pattern.
`s.length` fuel suffices: every step consumes at least one character of `s`
when `pat` is nonempty. -/
def replaceAll (pat rep s : List Char) : List Char :=
  replaceAllGo pat rep s.length s

/-- Split on a character (JavaScript `s.split(c)`), keeping empty pieces. -/
def splitOnChar (c : Char) : List Char → List (List Char)
  | [] => [[]]
  | x :: xs =>
      let r := splitOnChar c xs
      if x == c then [] :: r
      else
        match r with
        | [] => [[x]]
        | h :: t => (x :: h) :: t

/-- Regex `a.*b` restricted to one line: an occurrence of `a` followed,
later in the same line, by an occurrence of `b`. -/
def seq2 (a b line : List Char) : Bool :=
  match findSplit a line with
  | none => false
  | some (_, rest) => containsChars b rest

/-- Regex `a.*b.*c` restricted to one line. -/
def seq3 (a b c line : List Char) : Bool :=
  match findSplit a line with
  | none => false
  | some (_, rest) => seq2 b c rest

/-- Unanchored regex test over a whole string: since `.` does not match a
newline in a JavaScript regex, a `a.*b` pattern must match within one line. -/
def testLine (p : List Char → Bool) (s : List Char) : Bool :=
  (splitOnChar '\n' s).any p

/-! ## Error monitor (src/lib/error-monitor.ts) -/

/-- One entry of `ErrorMonitor.errorPatterns`; the `autoFix` producer is not
needed by the claims under verification and is omitted.  `type` keeps the
source's string values ("css", "hydration", "syntax", "build", "runtime"). -/
structure ErrorPattern where
  pattern : List Char → Bool
  type : String
  description : String

/-- ASCII 39, the apostrophe character (avoided in string literals). -/
def apos : Char := Char.ofNat 39

/-- Rule 1: `/\[postcss\].*Unknown word.*```css/`. -/
def ruleCss : ErrorPattern :=
  { pattern := testLine (seq3 ("[postcss]").data ("Unknown word").data ("```css").data),
    type := "css",
    description := "CSS file contains markdown syntax" }

/-- The literal text of `/hydrated but some attributes.*didn't match/`'s
second branch, built around the apostrophe. -/
def didntMatchChars : List Char :=
  ("didn").data ++ apos :: ("t match").data

/-- Rule 2: `/hydrated but some attributes.*didn't match/`. -/
def ruleHydration : ErrorPattern :=
  { pattern := testLine (seq2 ("hydrated but some attributes").data didntMatchChars),
    type := "hydration",
    description := "React hydration mismatch" }

/-- Rule 3: `/WritableStream is closed|Invalid state.*WritableStream/`. -/
def ruleStream : ErrorPattern :=
  { pattern := fun s =>
      containsChars ("WritableStream is closed").data s
        || testLine (seq2 ("Invalid state").data ("WritableStream").data) s,
    type := "runtime",
    description := "Stream handling error" }

/-- Rule 4: `/Firecrawl API error.*Invalid url|Invalid URL|Invalid URL format/`. -/
def ruleUrl : ErrorPattern :=
  { pattern := fun s =>
      testLine (seq2 ("Firecrawl API error").data ("Invalid url").data) s
        || containsChars ("Invalid URL").data s
        || containsChars ("Invalid URL format").data s,
    type := "runtime",
    description := "Invalid URL format for Firecrawl API" }

/-- Rule 5: `/Cannot find module|Module not found/`. -/
def ruleModule : ErrorPattern :=
  { pattern := fun s =>
      containsChars ("Cannot find module").data s
        || containsChars ("Module not found").data s,
    type := "build",
    description := "Missing module dependency" }

/-- Rule 6: `/Unexpected token|SyntaxError/`. -/
def ruleSyntaxError : ErrorPattern :=
  { pattern := fun s =>
      containsChars ("Unexpected token").data s
        || containsChars ("SyntaxError").data s,
    type := "syntax",
    description := "JavaScript/TypeScript syntax error" }

/-- `ErrorMonitor.errorPatterns`, in declaration order. -/
def errorPatterns : List ErrorPattern :=
  [ruleCss, ruleHydration, ruleStream, ruleUrl, ruleModule, ruleSyntaxError]

/-- The `for (const pattern of ...) if (pattern.pattern.test(msg)) return pattern`
loop of `ErrorMonitor.detectError`, over an explicit rule list. -/
def detectErrorGo : List ErrorPattern → List Char → Option ErrorPattern
  | [], _ => none
  | r :: rs, msg => if r.pattern msg then some r else detectErrorGo rs msg

/-- `ErrorMonitor.detectError`. -/
def detectError (msg : List Char) : Option ErrorPattern :=
  detectErrorGo errorPatterns msg

/-- `ErrorMonitor.getErrorType`: the matched rule's type, else "unknown". -/
def getErrorType (msg : List Char) : String :=
  match detectError msg with
  | some r => r.type
  | none => "unknown"

/-! ## Auto-fix route (POST handler, src/unnamed/part_001)

Braces and apostrophes inside the source's pattern/replacement strings are
written with the escapes \x7b, \x7d and \x27.  The unescaped dots in the
regex `/<body className={inter.className}>/` are modelled as literal dots. -/

/-- The plan fields the auto-fix route receives (`{file, fix, explanation}`
from the request body, plus the `manual` flag of the monitor's AutoFix). -/
structure RemediationPlan where
  file : List Char
  fix : List Char
  explanation : List Char
  manual : Bool

/-- Pattern of the hydration branch's replace. -/
def bodyPat : List Char := ("<body className=\x7binter.className\x7d>").data

/-- Replacement of the hydration branch's replace. -/
def bodyRep : List Char :=
  ("<body className=\x7binter.className\x7d suppressHydrationWarning>").data

/-- Pattern of the stream branch's global replace. -/
def closePat : List Char := ("await writer.close();").data

/-- Replacement of the stream branch's global replace. -/
def closeRep : List Char :=
  ("try \x7b\n          if (writer && !stream.locked) \x7b\n            await writer.close();\n          \x7d\n        \x7d catch (closeError) \x7b\n          console.warn(\x27Writer already closed or stream locked:\x27, closeError);\n        \x7d").data

/-- The `urlValidation` helper text prepended by the scrape-url branch. -/
def urlValidationChars : List Char :=
  ("\nfunction validateUrl(url: string): string \x7b\n  try \x7b\n    if (!url.startsWith(\x27http://\x27) && !url.startsWith(\x27https://\x27)) \x7b\n      url = \x27https://\x27 + url;\n    \x7d\n    const validUrl = new URL(url);\n    return validUrl.toString();\n  \x7d catch \x7b\n    throw new Error(\x27Invalid URL format\x27);\n  \x7d\n\x7d\n").data

/-- Pattern of the scrape-url branch's global replace. -/
def targetPat : List Char := ("const targetUrl = url;").data

/-- Replacement of the scrape-url branch's global replace. -/
def targetRep : List Char := ("const targetUrl = validateUrl(url);").data

/-- `content.replace(/^```css\n/, '')`: the regex is anchored at the start of
the string and replaced once. -/
def stripLead (l : List Char) : List Char :=
  if (("```css\n").data).isPrefixOf l then l.drop (("```css\n").data).length else l

/-- `content.replace(/\n```$/, '')`: without the `m` flag, `$` anchors at the
very end of the string, so one trailing fence is removed. -/
def stripTrail (l : List Char) : List Char :=
  if (("\n```").data).isSuffixOf l then l.take (l.length - (("\n```").data).length)
  else l

/-- Branch guard of the second (CSS) branch, in route order: the CSS branch
runs only when the first branch's condition failed and
`file.endsWith('.css') && fix.includes('Remove markdown')` holds. -/
def selectsCss (plan : RemediationPlan) : Bool :=
  !(plan.file == ("app/layout.tsx").data
      && containsChars ("suppressHydrationWarning").data plan.fix)
    && ((".css").data).isSuffixOf plan.file
    && containsChars ("Remove markdown").data plan.fix

/-- The POST handler of the auto-fix route, as a function from the target
file's current content to its new content plus the reported `success` flag.
Branches in source order; each file write is the returned content. -/
def autoFixRoute (plan : RemediationPlan) (content : List Char) : List Char × Bool :=
  if plan.file == ("app/layout.tsx").data
      && containsChars ("suppressHydrationWarning").data plan.fix then
    (if containsChars ("suppressHydrationWarning").data content then content
     else replaceFirst bodyPat bodyRep content, true)
  else if ((".css").data).isSuffixOf plan.file
      && containsChars ("Remove markdown").data plan.fix then
    (stripTrail (stripLead content), true)
  else if containsChars ("generate-ai-code-stream").data plan.file
      && containsChars ("stream state checks").data plan.fix then
    (if containsChars ("!stream.locked").data content then content
     else replaceAll closePat closeRep content, true)
  else if containsChars ("scrape-url-enhanced").data plan.file
      && containsChars ("Validate and format URL").data plan.fix then
    (if containsChars ("validateUrl").data content then content
     else replaceAll targetPat targetRep (urlValidationChars ++ '\n' :: content), true)
  else (content, false)

/-! ## Sandbox lifecycle (SandboxWarning, src/unnamed/part_000) -/

/-- The three lifecycle phases the warning component distinguishes:
countdown not yet in the warning window, warning shown, expired. -/
inductive LifeState where
  | active
  | warning
  | expired
deriving DecidableEq

/-- `SANDBOX_LIFETIME = 15 * 60 * 1000` (milliseconds). -/
def SANDBOX_LIFETIME : Int := 15 * 60 * 1000

/-- `WARNING_THRESHOLD = 2 * 60 * 1000` (milliseconds). -/
def WARNING_THRESHOLD : Int := 2 * 60 * 1000

/-- `remaining = SANDBOX_LIFETIME - (Date.now() - startTime)`. -/
def remainingAt (start now : Int) : Int :=
  SANDBOX_LIFETIME - (now - start)

/-- The state the interval callback computes from `remaining`: expired when
`remaining <= 0`, warning when `remaining <= WARNING_THRESHOLD`, active
otherwise. -/
def observeState (start now : Int) : LifeState :=
  if remainingAt start now ≤ 0 then LifeState.expired
  else if remainingAt start now ≤ WARNING_THRESHOLD then LifeState.warning
  else LifeState.active

/-- The `timeRemaining` value the callback reports: clamped to 0 at expiry,
the raw remaining time otherwise. -/
def reportedRemaining (start now : Int) : Int :=
  if remainingAt start now ≤ 0 then 0 else remainingAt start now

/-- Forward-progress rank of a lifecycle state. -/
def stateRank : LifeState → Nat
  | LifeState.active => 0
  | LifeState.warning => 1
  | LifeState.expired => 2

/-! ## Restore-project route (POST handler, src/unnamed/part_003) -/

/-- Outcome of reading the apply-ai-code-stream response body, one
constructor per code path: the streaming read loop finishing (with or
without a `complete` event), the stream read throwing, a plain JSON body
parsing, the manual `data:` line scan finding a `complete` event after a
JSON parse failure, or nothing parseable at all. -/
inductive ApplyBody where
  | streamOk
  | streamThrew
  | jsonParsed
  | sseFallbackFound
  | unparseable
deriving DecidableEq

/-- The request body fields the restore route reads.  `files = none` models
an absent or non-array `files` value. -/
structure RestoreRequest where
  files : Option (List ProjectFile)
  packages : Option (List String)
  sandboxId : Option String

/-- What the route responds with: a success JSON carrying `filesRestored`
and `packagesRestored`, or an error status. -/
inductive RouteResult where
  | success (filesRestored packagesRestored : Nat)
  | failure (status : Nat)
deriving DecidableEq

/-- The restore-project POST handler.  `applyOk` is `applyResponse.ok`;
`body` is how reading that response went; `restartOk` is
`restartResponse.ok` for the final restart-vite call — on failure the code
only logs a warning and still returns the success JSON. -/
def restoreProject (req : RestoreRequest) (applyOk : Bool) (body : ApplyBody)
    (_restartOk : Bool) : RouteResult :=
  match req.files with
  | none => RouteResult.failure 400
  | some files =>
      match req.sandboxId with
      | none => RouteResult.failure 400
      | some sid =>
          if sid.isEmpty then RouteResult.failure 400
          else if !applyOk then RouteResult.failure 500
          else
            match body with
            | ApplyBody.streamThrew => RouteResult.failure 500
            | ApplyBody.unparseable => RouteResult.failure 500
            | _ => RouteResult.success files.length ((req.packages.getD []).length)
/-! ## Concrete instances used by witnesses and counterexamples -/

/-- A stored snapshot used as the pre-save state in counterexamples. -/
def exSnapA : ProjectState :=
  { files := [], packages := [], lastSaved := 0, projectName := "old", sandboxId := none }

/-- A distinct snapshot passed to `saveProject` in counterexamples. -/
def exSnapB : ProjectState :=
  { files := [], packages := [], lastSaved := 0, projectName := "new", sandboxId := none }

/-- The snapshot `{files: {a:1, b:2}, packages: {p}}` of the merge-on-save
example. -/
def sW : ProjectState :=
  { files := [ProjectFile.mk "a" "1" "txt", ProjectFile.mk "b" "2" "txt"],
    packages := ["p"], lastSaved := 0, projectName := "PLC Karting", sandboxId := none }

/-- Storage holding `sW` in both slots. -/
def sigmaW : Storage :=
  { primary := some (SlotVal.good sW), backup := some (SlotVal.good sW) }

/-- The update `[{path:b, content:3}, {path:c, content:4}]` of the
merge-on-save example. -/
def newFilesW : List ProjectFile :=
  [ProjectFile.mk "b" "3" "txt", ProjectFile.mk "c" "4" "txt"]

/-- An error text matched by both the module rule (rule 5) and the
syntax-error rule (rule 6); declaration order must pick rule 5. -/
def msgW : List Char := ("SyntaxError: Cannot find module x").data

/-- The CSS remediation plan the error monitor emits (manual = false). -/
def cssPlanW : RemediationPlan :=
  { file := ("app/globals.css").data,
    fix := ("Remove markdown code blocks from CSS file").data,
    explanation := ("CSS files should not contain markdown syntax").data,
    manual := false }

/-- CSS content opening with two markdown fences; the unguarded CSS branch
strips one fence per run. -/
def cssContentW : List Char := ("```css\n```css\nbody").data

/-- The hydration remediation plan the error monitor emits (manual = false). -/
def hydrationPlanW : RemediationPlan :=
  { file := ("app/layout.tsx").data,
    fix := ("Add suppressHydrationWarning to affected elements").data,
    explanation := ("Browser extensions or client-only code causing hydration mismatch").data,
    manual := false }


/-! ## Lemmas about the string machinery -/

theorem findSplit_sound {pat : List Char} :
    ∀ {s b a : List Char}, findSplit pat s = some (b, a) → s = b ++ pat ++ a := by
  intro s
  induction s with
  | nil =>
    intro b a h
    simp only [findSplit] at h
    split at h
    · rename_i hemp
      rw [List.isEmpty_eq_true] at hemp
      cases h
      simp [hemp]
    · exact absurd h (by simp)
  | cons c rest ih =>
    intro b a h
    simp only [findSplit] at h
    split at h
    · rename_i hpre
      rw [List.isPrefixOf_iff_prefix] at hpre
      obtain ⟨t, ht⟩ := hpre
      cases h
      rw [← ht, List.drop_left]
      simp
    · rw [Option.map_eq_some'] at h
      obtain ⟨⟨b', a'⟩, hfs, heq⟩ := h
      cases heq
      have := ih hfs
      simp [this]

theorem contains_of_infix {pat s : List Char} (h : pat <:+: s) :
    containsChars pat s = true := by
  induction s with
  | nil =>
    have : pat = [] := List.eq_nil_of_infix_nil h
    simp [containsChars, findSplit, this]
  | cons c rest ih =>
    simp only [containsChars, findSplit]
    split
    · simp
    · rename_i hpre
      obtain ⟨b, a, hba⟩ := h
      cases b with
      | nil =>
        exfalso
        apply hpre
        rw [List.isPrefixOf_iff_prefix]
        exact ⟨a, by simpa using hba⟩
      | cons x b' =>
        simp only [List.cons_append, List.cons.injEq] at hba
        obtain ⟨rfl, hrest⟩ := hba
        have : pat <:+: rest := ⟨b', a, hrest⟩
        have hc := ih this
        simp only [containsChars] at hc
        simpa using hc

theorem infix_of_contains {pat s : List Char} (h : containsChars pat s = true) :
    pat <:+: s := by
  simp only [containsChars, Option.isSome_iff_exists] at h
  obtain ⟨⟨b, a⟩, hfs⟩ := h
  exact ⟨b, a, (findSplit_sound hfs).symm⟩

theorem not_contains_findSplit {pat s : List Char} (h : containsChars pat s = false) :
    findSplit pat s = none := by
  simp only [containsChars] at h
  exact Option.not_isSome_iff_eq_none.mp (by simp [h])

theorem replaceFirst_of_not_contains {pat rep s : List Char}
    (h : containsChars pat s = false) : replaceFirst pat rep s = s := by
  simp [replaceFirst, not_contains_findSplit h]

theorem contains_replaceFirst {marker pat rep s : List Char}
    (hm : marker <:+: rep) (hc : containsChars pat s = true) :
    containsChars marker (replaceFirst pat rep s) = true := by
  simp only [containsChars, Option.isSome_iff_exists] at hc
  obtain ⟨⟨b, a⟩, hfs⟩ := hc
  rw [replaceFirst, hfs]
  exact contains_of_infix (hm.trans (List.infix_append b rep a))

theorem replaceAll_of_not_contains {pat rep s : List Char}
    (h : containsChars pat s = false) : replaceAll pat rep s = s := by
  have hnone := not_contains_findSplit h
  rw [replaceAll]
  cases hl : s.length with
  | zero => simp [replaceAllGo]
  | succ n => simp [replaceAllGo, hnone]

theorem contains_replaceAll {marker pat rep s : List Char}
    (hm : marker <:+: rep) (hpat : pat ≠ []) (hc : containsChars pat s = true) :
    containsChars marker (replaceAll pat rep s) = true := by
  simp only [containsChars, Option.isSome_iff_exists] at hc
  obtain ⟨⟨b, a⟩, hfs⟩ := hc
  have hs : s = b ++ pat ++ a := findSplit_sound hfs
  have hsne : s ≠ [] := by
    intro hnil
    rw [hnil] at hs
    have := List.append_eq_nil.mp hs.symm
    exact hpat (List.append_eq_nil.mp this.1).2
  obtain ⟨c, s', rfl⟩ := List.exists_cons_of_ne_nil hsne
  rw [replaceAll]
  simp only [List.length_cons, replaceAllGo, hfs]
  exact contains_of_infix (hm.trans (List.infix_append b rep _))

/-! ## Lemmas about path-keyed file maps -/

theorem findPath_cons_pos {f : ProjectFile} {p : String} (t : List ProjectFile)
    (h : f.path = p) : findPath (f :: t) p = some f := by
  rw [findPath, List.find?_cons_of_pos _ (by simp [h])]

theorem findPath_cons_neg {f : ProjectFile} {p : String} (t : List ProjectFile)
    (h : f.path ≠ p) : findPath (f :: t) p = findPath t p := by
  rw [findPath, List.find?_cons_of_neg _ (by simp [h]), findPath]

theorem findPath_map_replace_eq (m : List ProjectFile) (f : ProjectFile)
    (hany : m.any (fun g => g.path == f.path) = true) :
    findPath (m.map (fun g => if g.path == f.path then f else g)) f.path = some f := by
  induction m with
  | nil => simp at hany
  | cons g t ih =>
    by_cases hg : g.path = f.path
    · have h1 : (if g.path == f.path then f else g) = f := by simp [hg]
      rw [List.map_cons, h1]
      exact findPath_cons_pos _ rfl
    · have h1 : (if g.path == f.path then f else g) = g := by simp [hg]
      have hany' : t.any (fun g => g.path == f.path) = true := by
        rcases List.any_eq_true.mp hany with ⟨x, hx, hpx⟩
        rcases List.mem_cons.mp hx with rfl | hxt
        · exact absurd (by simpa using hpx) hg
        · exact List.any_eq_true.mpr ⟨x, hxt, hpx⟩
      rw [List.map_cons, h1, findPath_cons_neg _ hg]
      exact ih hany'

theorem findPath_map_replace_ne (m : List ProjectFile) (f : ProjectFile) (p : String)
    (hne : f.path ≠ p) :
    findPath (m.map (fun g => if g.path == f.path then f else g)) p = findPath m p := by
  induction m with
  | nil => simp [findPath]
  | cons g t ih =>
    by_cases hg : g.path = f.path
    · have h1 : (if g.path == f.path then f else g) = f := by simp [hg]
      rw [List.map_cons, h1, findPath_cons_neg _ hne, findPath_cons_neg _ (hg ▸ hne), ih]
    · have h1 : (if g.path == f.path then f else g) = g := by simp [hg]
      by_cases hgp : g.path = p
      · rw [List.map_cons, h1, findPath_cons_pos _ hgp, findPath_cons_pos _ hgp]
      · rw [List.map_cons, h1, findPath_cons_neg _ hgp, findPath_cons_neg _ hgp, ih]

theorem findPath_insertFile (m : List ProjectFile) (f : ProjectFile) (p : String) :
    findPath (insertFile m f) p = if f.path = p then some f else findPath m p := by
  rw [insertFile]
  by_cases hany : m.any (fun g => g.path == f.path) = true
  · rw [if_pos hany]
    by_cases hfp : f.path = p
    · rw [if_pos hfp]
      subst hfp
      exact findPath_map_replace_eq m f hany
    · rw [if_neg hfp]
      exact findPath_map_replace_ne m f p hfp
  · rw [if_neg hany]
    have hnone : ∀ g ∈ m, g.path ≠ f.path := by
      intro g hgm hcon
      exact hany (List.any_eq_true.mpr ⟨g, hgm, by simp [hcon]⟩)
    by_cases hfp : f.path = p
    · rw [if_pos hfp]
      have hmp : List.find? (fun g => g.path == p) m = none := by
        rw [List.find?_eq_none]
        intro g hgm hcon
        rw [beq_iff_eq] at hcon
        exact hnone g hgm (hcon.trans hfp.symm)
      rw [findPath, List.find?_append, hmp, Option.none_or]
      simp [hfp]
    · rw [if_neg hfp]
      rw [findPath, List.find?_append]
      have h1 : List.find? (fun g => g.path == p) [f] = none := by simp [hfp]
      rw [h1, Option.or_none, findPath]

theorem findPath_foldl_insertFile (l : List ProjectFile) :
    ∀ (m : List ProjectFile) (p : String),
      findPath (l.foldl insertFile m) p =
        match findLastPath l p with
        | some g => some g
        | none => findPath m p := by
  induction l with
  | nil =>
    intro m p
    simp [findLastPath]
  | cons f t ih =>
    intro m p
    rw [List.foldl_cons, ih, findLastPath]
    cases hlt : findLastPath t p with
    | some g => simp
    | none =>
      simp only [findPath_insertFile]
      by_cases hfp : f.path = p
      · simp [hfp]
      · simp [hfp]

theorem findLastPath_append (l₁ l₂ : List ProjectFile) (p : String) :
    findLastPath (l₁ ++ l₂) p =
      match findLastPath l₂ p with
      | some g => some g
      | none => findLastPath l₁ p := by
  induction l₁ with
  | nil =>
    cases h : findLastPath l₂ p <;> simp [findLastPath, h]
  | cons f t ih =>
    rw [List.cons_append, findLastPath, ih, findLastPath]
    cases h : findLastPath l₂ p <;> cases h2 : findLastPath t p <;> simp

theorem findLastPath_eq_none_iff (l : List ProjectFile) (p : String) :
    findLastPath l p = none ↔ ∀ g ∈ l, g.path ≠ p := by
  induction l with
  | nil => simp [findLastPath]
  | cons f t ih =>
    rw [findLastPath]
    cases hlt : findLastPath t p with
    | some g =>
      have hnot : ¬ ∀ g ∈ t, g.path ≠ p := by
        intro hall
        rw [ih.mpr hall] at hlt
        cases hlt
      simp [List.forall_mem_cons, hnot]
    | none =>
      have ht : ∀ g ∈ t, g.path ≠ p := ih.mp hlt
      by_cases hfp : f.path = p
      · simp [hfp, List.forall_mem_cons]
      · rw [if_neg (by simp [hfp] : ¬ ((f.path == p) = true))]
        constructor
        · intro _
          exact List.forall_mem_cons.mpr ⟨hfp, ht⟩
        · intro _
          rfl

theorem findLastPath_eq_findPath (l : List ProjectFile) (p : String)
    (h : (l.map ProjectFile.path).Nodup) : findLastPath l p = findPath l p := by
  induction l with
  | nil => simp [findLastPath, findPath]
  | cons f t ih =>
    rw [List.map_cons, List.nodup_cons] at h
    rw [findLastPath, ih h.2]
    by_cases hfp : f.path = p
    · have htnone : findPath t p = none := by
        rw [findPath, List.find?_eq_none]
        intro g hgm hcon
        rw [beq_iff_eq] at hcon
        exact h.1 (List.mem_map.mpr ⟨g, hgm, hcon.trans hfp.symm⟩)
      rw [htnone, findPath_cons_pos t hfp]
      simp [hfp]
    · rw [findPath_cons_neg t hfp]
      cases hgt : findPath t p <;> simp [hfp]

theorem findPath_eq_some_self (l : List ProjectFile) (f : ProjectFile)
    (h : (l.map ProjectFile.path).Nodup) (hf : f ∈ l) : findPath l f.path = some f := by
  induction l with
  | nil => simp at hf
  | cons g t ih =>
    rw [List.map_cons, List.nodup_cons] at h
    rcases List.mem_cons.mp hf with rfl | hft
    · exact findPath_cons_pos t rfl
    · have hne : g.path ≠ f.path := by
        intro hcon
        exact h.1 (List.mem_map.mpr ⟨f, hft, hcon.symm⟩)
      rw [findPath_cons_neg t hne]
      exact ih h.2 hft

theorem mem_dedupFirst (l : List String) (q : String) : q ∈ dedupFirst l ↔ q ∈ l := by
  induction l using dedupFirst.induct with
  | case1 => simp [dedupFirst]
  | case2 x xs ih =>
    rw [dedupFirst]
    simp only [List.mem_cons, ih, List.mem_filter]
    constructor
    · rintro (rfl | ⟨hm, _⟩)
      · exact Or.inl rfl
      · exact Or.inr hm
    · rintro (rfl | hm)
      · exact Or.inl rfl
      · by_cases hq : q = x
        · exact Or.inl hq
        · exact Or.inr ⟨hm, by simp [hq]⟩

theorem loadProject_saveProject (now : Nat) (st : ProjectState) (σ : Storage) :
    loadProject (saveProject now st σ) = some { st with lastSaved := now } := rfl

/-! ## Claim theorems -/

/-- Claim C6 (confirmed): round-trip law — `loadProject` right after
`saveProject now s` returns a snapshot equal to `s` in `files`, `packages`,
`projectName` and `sandboxId`, with `lastSaved` refreshed to `now`. -/
theorem save_load_round_trip (now : Nat) (s : ProjectState) (σ : Storage) :
    loadProject (saveProject now s σ) =
      some { files := s.files, packages := s.packages, lastSaved := now,
             projectName := s.projectName, sandboxId := s.sandboxId } := rfl

/-- Claim C2, counterexample: with a corrupt (present but undeserializable)
primary slot and a good backup holding `exSnapA`, `loadProject` returns
`none` instead of the backup snapshot — refuting the claim that an
unreadable primary falls back to the backup. -/
theorem load_corrupt_primary_ignores_backup :
    (Storage.mk (some SlotVal.corrupt) (some (SlotVal.good exSnapA))).backup
        = some (SlotVal.good exSnapA) ∧
    loadProject (Storage.mk (some SlotVal.corrupt) (some (SlotVal.good exSnapA))) = none :=
  ⟨rfl, rfl⟩

/-- Claim C2, amended: `loadProject` reads the primary slot; it falls back
to the backup only when the primary is absent; a present-but-unreadable
primary yields `none` without consulting the backup, and with the primary
absent an unreadable or absent backup also yields `none`. -/
theorem loadProject_fallback (σ : Storage) (s : ProjectState) :
    (σ.primary = some (SlotVal.good s) → loadProject σ = some s) ∧
    (σ.primary = none → σ.backup = some (SlotVal.good s) → loadProject σ = some s) ∧
    (σ.primary = some SlotVal.corrupt → loadProject σ = none) ∧
    (σ.primary = none → σ.backup = some SlotVal.corrupt → loadProject σ = none) ∧
    (σ.primary = none → σ.backup = none → loadProject σ = none) := by
  obtain ⟨p, b⟩ := σ
  refine ⟨fun h1 => ?_, fun h1 h2 => ?_, fun h1 => ?_, fun h1 h2 => ?_, fun h1 h2 => ?_⟩
  · change p = _ at h1
    subst h1
    rfl
  · change p = _ at h1
    change b = _ at h2
    subst h1
    subst h2
    rfl
  · change p = _ at h1
    subst h1
    rfl
  · change p = _ at h1
    change b = _ at h2
    subst h1
    subst h2
    rfl
  · change p = _ at h1
    change b = _ at h2
    subst h1
    subst h2
    rfl

/-- Witness for the amended C2 theorem: deleting only the primary slot
still serves the snapshot from backup. -/
theorem loadProject_fallback_witness :
    loadProject (Storage.mk none (some (SlotVal.good exSnapA))) = some exSnapA :=
  (loadProject_fallback (Storage.mk none (some (SlotVal.good exSnapA))) exSnapA).2.1 rfl rfl

/-- Claim C3, counterexample: starting from both slots holding `exSnapA`,
a `saveProject` of `exSnapB` whose backup-slot write throws leaves the
primary already overwritten, so a subsequent `loadProject` no longer
returns the pre-save snapshot — the commit is partial, refuting atomicity. -/
theorem save_backup_fault_partial_commit :
    loadProject (Storage.mk (some (SlotVal.good exSnapA)) (some (SlotVal.good exSnapA)))
        = some exSnapA ∧
    loadProject (saveProjectF 5 exSnapB SaveFault.backupThrows
        (Storage.mk (some (SlotVal.good exSnapA)) (some (SlotVal.good exSnapA))))
        ≠ some exSnapA := by
  exact ⟨rfl, by decide⟩

/-- Claim C3, amended: `saveProject` swallows failures (the catch only
logs; nothing is reported to the caller).  A serialization or primary-write
throw leaves storage untouched, but a backup-write throw leaves the primary
slot already holding the new snapshot (the backup keeps its old value), so
a subsequent `loadProject` observes the new snapshot — a partial commit. -/
theorem saveProject_fault_semantics (now : Nat) (st : ProjectState) (σ : Storage) :
    saveProjectF now st SaveFault.serializeThrows σ = σ ∧
    saveProjectF now st SaveFault.primaryThrows σ = σ ∧
    (saveProjectF now st SaveFault.backupThrows σ).backup = σ.backup ∧
    loadProject (saveProjectF now st SaveFault.backupThrows σ) =
      some { st with lastSaved := now } :=
  ⟨rfl, rfl, rfl, rfl⟩

/-- Claim C7 (confirmed): importing a document without a well-formed
`files` array (e.g. `{}`) is rejected and leaves storage unchanged, while a
document whose `files` field is an array (e.g. `{files: []}`) is accepted. -/
theorem importProject_validation (now : Nat) (σ : Storage) :
    importProject now (ImportDoc.parsed none none none none none) σ = (false, σ) ∧
    (importProject now (ImportDoc.parsed (some []) none none none none) σ).1 = true :=
  ⟨rfl, rfl⟩

/-- Claim C10 (confirmed): a successful import replaces the stored snapshot
wholesale — afterwards `loadProject` returns exactly the imported document's
files and packages, and any path absent from the imported files is not
retrievable from the loaded snapshot. -/
theorem importProject_replaces_wholesale (now : Nat) (fs : List ProjectFile)
    (pkgs : List String) (name : String) (sbid : Option String) (ls : Nat) (σ : Storage) :
    (importProject now (ImportDoc.parsed (some fs) (some pkgs) (some name) sbid (some ls)) σ).1
        = true ∧
    loadProject
        (importProject now (ImportDoc.parsed (some fs) (some pkgs) (some name) sbid (some ls)) σ).2
      = some { files := fs, packages := pkgs, lastSaved := now,
               projectName := name, sandboxId := sbid } ∧
    (∀ p : String, (∀ g ∈ fs, g.path ≠ p) → findPath fs p = none) := by
  refine ⟨rfl, rfl, ?_⟩
  intro p hp
  rw [findPath, List.find?_eq_none]
  intro g hg hcon
  rw [beq_iff_eq] at hcon
  exact hp g hg hcon

/-- Claim C9 (confirmed): once the request carries a files array and a
sandbox id and the apply step succeeded with a readable response, a failing
final restart step still yields the success result reporting the files and
packages as restored. -/
theorem restore_restart_failure_non_fatal (files : List ProjectFile)
    (pkgs : Option (List String)) (sid : String) (body : ApplyBody)
    (hsid : sid.isEmpty = false)
    (hbody : body = ApplyBody.streamOk ∨ body = ApplyBody.jsonParsed ∨
      body = ApplyBody.sseFallbackFound) :
    restoreProject (RestoreRequest.mk (some files) pkgs (some sid)) true body false =
      RouteResult.success files.length ((pkgs.getD []).length) := by
  rcases hbody with rfl | rfl | rfl <;> simp [restoreProject, hsid]

/-- Witness for C9: a one-file, one-package request with a failing restart
still reports full success. -/
theorem restore_restart_failure_non_fatal_witness :
    restoreProject
        (RestoreRequest.mk (some [ProjectFile.mk "a" "1" "txt"]) (some ["p"]) (some "sb"))
        true ApplyBody.streamOk false =
      RouteResult.success 1 1 :=
  restore_restart_failure_non_fatal [ProjectFile.mk "a" "1" "txt"] (some ["p"]) "sb"
    ApplyBody.streamOk (by decide) (Or.inl rfl)

/-- Claim C8 (confirmed): for a fixed persisted start time, the observed
lifecycle state never moves backward as wall-clock time advances, the
reported remaining duration strictly decreases while it is positive, and
once it reaches zero the observed state is expired. -/
theorem lifecycle_monotone (start n1 n2 : Int) :
    (n1 ≤ n2 → stateRank (observeState start n1) ≤ stateRank (observeState start n2)) ∧
    (n1 < n2 → 0 < reportedRemaining start n1 →
      reportedRemaining start n2 < reportedRemaining start n1) ∧
    (reportedRemaining start n1 = 0 → observeState start n1 = LifeState.expired) := by
  refine ⟨?_, ?_, ?_⟩
  · intro h
    unfold observeState remainingAt SANDBOX_LIFETIME WARNING_THRESHOLD
    split_ifs <;> simp [stateRank] <;> omega
  · intro h hpos
    unfold reportedRemaining remainingAt SANDBOX_LIFETIME at hpos ⊢
    split_ifs at hpos ⊢ <;> omega
  · intro h
    unfold reportedRemaining remainingAt SANDBOX_LIFETIME at h
    unfold observeState remainingAt SANDBOX_LIFETIME WARNING_THRESHOLD
    split_ifs at h ⊢ <;> first | rfl | omega

/-- Witness for C8: between two ticks one second apart the rank does not
decrease and the reported remaining time strictly drops. -/
theorem lifecycle_monotone_witness :
    stateRank (observeState 0 1000) ≤ stateRank (observeState 0 2000) ∧
    reportedRemaining 0 2000 < reportedRemaining 0 1000 := by
  have h := lifecycle_monotone 0 1000 2000
  exact ⟨h.1 (by decide), h.2.1 (by decide) (by decide)⟩

/-- Claim C1 (confirmed): `saveFiles` is merge-on-save.  With a stored
snapshot `s` (paths unique, per the snapshot invariant), after
`saveFiles now newFiles newPkgs` the stored snapshot keeps every prior file
whose path is not overwritten by `newFiles` unchanged, maps every path of
`newFiles` to its last entry with that path (last write wins), holds the
set union of the package lists, and preserves name and sandbox id. -/
theorem saveFiles_merge_on_save (now : Nat) (newFiles : List ProjectFile)
    (newPkgs : List String) (σ : Storage) (s : ProjectState)
    (hload : loadProject σ = some s)
    (hnd : (s.files.map ProjectFile.path).Nodup) :
    ∃ s2, loadProject (saveFiles now newFiles newPkgs σ) = some s2 ∧
      (∀ f ∈ s.files, (∀ g ∈ newFiles, g.path ≠ f.path) →
        findPath s2.files f.path = some f) ∧
      (∀ p : String, (∃ g ∈ newFiles, g.path = p) →
        findPath s2.files p = findLastPath newFiles p) ∧
      (∀ q : String, q ∈ s2.packages ↔ q ∈ s.packages ∨ q ∈ newPkgs) ∧
      s2.projectName = s.projectName ∧ s2.sandboxId = s.sandboxId := by
  refine ⟨ProjectState.mk ((s.files ++ newFiles).foldl insertFile [])
      (dedupFirst (s.packages ++ newPkgs)) now s.projectName s.sandboxId,
    ?_, ?_, ?_, ?_, rfl, rfl⟩
  · rw [saveFiles, hload]
    rfl
  · intro f hf hnot
    dsimp only
    rw [findPath_foldl_insertFile, findLastPath_append,
      (findLastPath_eq_none_iff newFiles f.path).mpr hnot,
      findLastPath_eq_findPath s.files f.path hnd,
      findPath_eq_some_self s.files f hnd hf]
  · rintro p ⟨g, hg, hgp⟩
    have hne : findLastPath newFiles p ≠ none := fun hnone =>
      (findLastPath_eq_none_iff newFiles p).mp hnone g hg hgp
    obtain ⟨g2, hg2⟩ := Option.ne_none_iff_exists'.mp hne
    dsimp only
    rw [findPath_foldl_insertFile, findLastPath_append, hg2]
  · intro q
    dsimp only
    rw [mem_dedupFirst, List.mem_append]

/-- Witness for C1: the spec's example — snapshot `{files: {a:1, b:2},
packages: {p}}` merged with `[{path:b, content:3}, {path:c, content:4}]`
and `[q]`. -/
theorem saveFiles_merge_on_save_witness :
    ∃ s2, loadProject (saveFiles 7 newFilesW ["q"] sigmaW) = some s2 ∧
      (∀ f ∈ sW.files, (∀ g ∈ newFilesW, g.path ≠ f.path) →
        findPath s2.files f.path = some f) ∧
      (∀ p : String, (∃ g ∈ newFilesW, g.path = p) →
        findPath s2.files p = findLastPath newFilesW p) ∧
      (∀ q : String, q ∈ s2.packages ↔ q ∈ sW.packages ∨ q ∈ ["q"]) ∧
      s2.projectName = sW.projectName ∧ s2.sandboxId = sW.sandboxId :=
  saveFiles_merge_on_save 7 newFilesW ["q"] sigmaW sW rfl (by decide)

/-- Helper: the detection loop returns the first rule of the list whose
predicate matches. -/
theorem detectErrorGo_first (msg : List Char) (r : ErrorPattern) (post : List ErrorPattern) :
    ∀ pre : List ErrorPattern, r.pattern msg = true →
      (∀ r2 ∈ pre, r2.pattern msg = false) →
      detectErrorGo (pre ++ r :: post) msg = some r := by
  intro pre
  induction pre with
  | nil =>
    intro hr _
    simp [detectErrorGo, hr]
  | cons x xs ih =>
    intro hr hpre
    have hx : x.pattern msg = false := hpre x (by simp)
    rw [List.cons_append, detectErrorGo]
    simp only [hx, Bool.false_eq_true, if_false]
    exact ih hr (fun r2 h2 => hpre r2 (by simp [h2]))

/-- Helper: the detection loop returns `none` when no rule matches. -/
theorem detectErrorGo_none (msg : List Char) :
    ∀ l : List ErrorPattern, (∀ r ∈ l, r.pattern msg = false) →
      detectErrorGo l msg = none := by
  intro l
  induction l with
  | nil => intro _; rfl
  | cons x xs ih =>
    intro hl
    have hx : x.pattern msg = false := hl x (by simp)
    rw [detectErrorGo]
    simp only [hx, Bool.false_eq_true, if_false]
    exact ih (fun r2 h2 => hl r2 (by simp [h2]))

/-- Claim C4 (confirmed): `detectError` scans the rule list strictly in
declaration order and returns the first matching rule (the model is a pure
function, so there are no side effects); text matched by no rule yields no
rule and `getErrorType` reports "unknown". -/
theorem detectError_first_match (msg : List Char) :
    (∀ pre r post, errorPatterns = pre ++ r :: post → r.pattern msg = true →
      (∀ r2 ∈ pre, r2.pattern msg = false) → detectError msg = some r) ∧
    ((∀ r ∈ errorPatterns, r.pattern msg = false) →
      detectError msg = none ∧ getErrorType msg = "unknown") := by
  constructor
  · intro pre r post heq hr hpre
    rw [detectError, heq]
    exact detectErrorGo_first msg r post pre hr hpre
  · intro hall
    have h1 : detectError msg = none := detectErrorGo_none msg errorPatterns hall
    exact ⟨h1, by rw [getErrorType, h1]⟩

/-- Witness for C4: `msgW` is matched by both the module rule and the
syntax-error rule; declaration order picks the module rule ("build"),
not the later syntax rule. -/
theorem detectError_first_match_witness :
    detectError msgW = some ruleModule ∧ ruleSyntaxError.pattern msgW = true ∧
    getErrorType msgW = "build" := by
  have h := (detectError_first_match msgW).1
    [ruleCss, ruleHydration, ruleStream, ruleUrl] ruleModule [ruleSyntaxError]
    rfl (by decide) (by decide)
  refine ⟨h, by decide, ?_⟩
  rw [getErrorType, h]
  rfl

/-- Claim C5, counterexample: the CSS branch has no guard condition.  On the
non-manual CSS plan and content opening with two markdown fences, the second
application strips a further fence, so the file content changes again —
refuting idempotence for every non-manual plan. -/
theorem cssAutoFix_not_idempotent :
    cssPlanW.manual = false ∧
    (autoFixRoute cssPlanW ((autoFixRoute cssPlanW cssContentW).1)).1
      ≠ (autoFixRoute cssPlanW cssContentW).1 :=
  ⟨rfl, by decide⟩

/-- Helper: a guarded patch step — skip when the marker is already present,
otherwise run a step that either leaves the content unchanged or plants the
marker — is idempotent. -/
theorem guard_step_idem (marker : List Char) (step : List Char → List Char)
    (hstep : ∀ c, step c = c ∨ containsChars marker (step c) = true) (c : List Char) :
    (if containsChars marker (if containsChars marker c then c else step c)
     then (if containsChars marker c then c else step c)
     else step (if containsChars marker c then c else step c)) =
    (if containsChars marker c then c else step c) := by
  by_cases hg : containsChars marker c = true
  · simp [hg]
  · have hgf : containsChars marker c = false := by
      rw [Bool.eq_false_iff]
      exact hg
    rcases hstep c with he | hcon
    · simp [hgf, he]
    · simp [hgf, hcon]

/-- Claim C5, amended: automated patch application is idempotent for every
plan that does not select the CSS branch — the hydration, stream and
scrape-url branches are guarded by a marker check, and the fallback is a
no-op — while the unguarded CSS branch may change the file again on a
second run. -/
theorem autoFixRoute_idempotent_non_css (plan : RemediationPlan) (content : List Char)
    (hcss : selectsCss plan = false) :
    autoFixRoute plan (autoFixRoute plan content).1 = autoFixRoute plan content := by
  by_cases hb1 : (plan.file == ("app/layout.tsx").data
      && containsChars ("suppressHydrationWarning").data plan.fix) = true
  · have hmB : ("suppressHydrationWarning").data <:+: bodyRep :=
      infix_of_contains (by decide)
    have hstep : ∀ c, replaceFirst bodyPat bodyRep c = c ∨
        containsChars ("suppressHydrationWarning").data (replaceFirst bodyPat bodyRep c) = true := by
      intro c
      by_cases hc : containsChars bodyPat c = true
      · exact Or.inr (contains_replaceFirst hmB hc)
      · exact Or.inl (replaceFirst_of_not_contains (Bool.eq_false_iff.mpr hc))
    simp only [autoFixRoute, hb1, if_true]
    exact congrArg (fun x => (x, true))
      (guard_step_idem ("suppressHydrationWarning").data (replaceFirst bodyPat bodyRep) hstep content)
  · have hb1f : (plan.file == ("app/layout.tsx").data
        && containsChars ("suppressHydrationWarning").data plan.fix) = false := by
      rw [Bool.eq_false_iff]
      exact hb1
    have hb2 : (((".css").data).isSuffixOf plan.file
        && containsChars ("Remove markdown").data plan.fix) = false := by
      unfold selectsCss at hcss
      rw [hb1f] at hcss
      simpa using hcss
    by_cases hb3 : (containsChars ("generate-ai-code-stream").data plan.file
        && containsChars ("stream state checks").data plan.fix) = true
    · have hmC : ("!stream.locked").data <:+: closeRep := infix_of_contains (by decide)
      have hpne : closePat ≠ [] := by decide
      have hstep : ∀ c, replaceAll closePat closeRep c = c ∨
          containsChars ("!stream.locked").data (replaceAll closePat closeRep c) = true := by
        intro c
        by_cases hc : containsChars closePat c = true
        · exact Or.inr (contains_replaceAll hmC hpne hc)
        · exact Or.inl (replaceAll_of_not_contains (Bool.eq_false_iff.mpr hc))
      simp only [autoFixRoute, hb1f, hb2, hb3, Bool.false_eq_true, if_false, if_true]
      exact congrArg (fun x => (x, true))
        (guard_step_idem ("!stream.locked").data (replaceAll closePat closeRep) hstep content)
    · have hb3f : (containsChars ("generate-ai-code-stream").data plan.file
          && containsChars ("stream state checks").data plan.fix) = false := by
        rw [Bool.eq_false_iff]
        exact hb3
      by_cases hb4 : (containsChars ("scrape-url-enhanced").data plan.file
          && containsChars ("Validate and format URL").data plan.fix) = true
      · have hmV : ("validateUrl").data <:+: targetRep := infix_of_contains (by decide)
        have hmU : ("validateUrl").data <:+: urlValidationChars := infix_of_contains (by decide)
        have hpne : targetPat ≠ [] := by decide
        have hstep : ∀ c,
            replaceAll targetPat targetRep (urlValidationChars ++ '\n' :: c)
              = c ∨
            containsChars ("validateUrl").data
              (replaceAll targetPat targetRep (urlValidationChars ++ '\n' :: c)) = true := by
          intro c
          by_cases hc : containsChars targetPat (urlValidationChars ++ '\n' :: c) = true
          · exact Or.inr (contains_replaceAll hmV hpne hc)
          · refine Or.inr ?_
            rw [replaceAll_of_not_contains (Bool.eq_false_iff.mpr hc)]
            exact contains_of_infix
              (hmU.trans (List.prefix_append urlValidationChars ('\n' :: c)).isInfix)
        simp only [autoFixRoute, hb1f, hb2, hb3f, hb4, Bool.false_eq_true, if_false, if_true]
        exact congrArg (fun x => (x, true))
          (guard_step_idem ("validateUrl").data
            (fun c => replaceAll targetPat targetRep (urlValidationChars ++ '\n' :: c))
            hstep content)
      · have hb4f : (containsChars ("scrape-url-enhanced").data plan.file
            && containsChars ("Validate and format URL").data plan.fix) = false := by
          rw [Bool.eq_false_iff]
          exact hb4
        simp only [autoFixRoute, hb1f, hb2, hb3f, hb4f, Bool.false_eq_true, if_false]

/-- Witness for the amended C5 theorem: the hydration plan applied to the
bare layout body tag — the second run is a no-op. -/
theorem autoFixRoute_idempotent_non_css_witness :
    autoFixRoute hydrationPlanW (autoFixRoute hydrationPlanW bodyPat).1 =
      autoFixRoute hydrationPlanW bodyPat :=
  autoFixRoute_idempotent_non_css hydrationPlanW bodyPat (by decide)
